import Mathlib

/-!
Shallow embedding of the mp3-splitting config parser (`src/split.py`).

The embedded core is:
* `time_stamp_to_seconds` — the timestamp-string to seconds conversion
  (`split.py`, lines 195-207);
* the two line grammars `CONFIG_PATTERN` / `ALT_CONFIG_PATTERN`
  (`split.py`, lines 17 and 21), embedded via a small backtracking
  regular-expression engine faithful to Python `re.search` semantics for
  the constructs those patterns use (greedy `{0,1}`, greedy `+`, lazy `*?`,
  character classes, groups, `$`);
* `process_conf` — the line loop that classifies each line, converts its
  timestamp, closes the previous track and opens a new one, and finally
  closes the last track with the supplied total duration
  (`split.py`, lines 137-192).

Python exceptions are modelled with `Except` over an explicit error type;
Python `int`, `str.strip` and `str.split(':')` are modelled at the level
of the ASCII strings that actually occur here (Unicode digit classes,
underscore digit separators and exotic whitespace are not modelled).
-/

namespace Mp3Split

/-- Python `str.strip()`: drop whitespace from both ends
(modelled for ASCII whitespace). -/
def pyStrip (s : String) : String :=
  String.mk (((s.data.dropWhile Char.isWhitespace).reverse.dropWhile
    Char.isWhitespace).reverse)

/-- Value of a nonempty all-digit character run, `none` otherwise. -/
def digitsVal (ds : List Char) : Option Nat :=
  match ds with
  | [] => none
  | _ =>
    if ds.all Char.isDigit then
      some (ds.foldl (fun a c => a * 10 + (c.toNat - 48)) 0)
    else none

/-- Python `int(s)`: an optional sign followed by a nonempty digit run
(whitespace padding, underscores and non-ASCII digits are not modelled;
none of them occur in this program's inputs). `none` models the
`ValueError: invalid literal for int()` failure. -/
def pyInt (s : String) : Option Int :=
  match s.data with
  | '-' :: ds => (digitsVal ds).map (fun n => -(n : Int))
  | '+' :: ds => (digitsVal ds).map (fun n => (n : Int))
  | ds => (digitsVal ds).map (fun n => (n : Int))

/-- Python `ts.split(':')` on character lists: split at every colon,
keeping empty pieces, and yielding one (empty) piece for the empty
string — exactly `str.split` with an explicit separator. -/
def splitColonChars : List Char → List (List Char)
  | [] => [[]]
  | c :: rest =>
    if c = ':' then [] :: splitColonChars rest
    else
      match splitColonChars rest with
      | g :: gs => (c :: g) :: gs
      | [] => [[c]]

/-- Python `ts.split(':')`. -/
def splitColon (s : String) : List String :=
  (splitColonChars s.data).map String.mk

/-- The exceptions `process_conf` and `time_stamp_to_seconds` can raise. -/
inductive PyError where
  /-- `ValueError: invalid literal for int() ...`, carrying the literal. -/
  | intParse (lit : String)
  /-- `ValueError: Unsupported timestamp format: ...` (line 207). -/
  | unsupportedTimestamp (ts : String)
  /-- `ValueError: Failed to parse config: line #... - ...` (line 160),
  carrying the 1-based line number and the stripped line text. -/
  | lineParse (lineNumber : Nat) (line : String)
  deriving DecidableEq, Repr

/-- `list(map(int, ...))`: convert every piece, raising at the first piece
that is not an integer literal — this runs before any length check in
`time_stamp_to_seconds`. -/
def pyIntList : List String → Except PyError (List Int)
  | [] => .ok []
  | p :: ps =>
    match pyInt p with
    | none => .error (.intParse p)
    | some v =>
      match pyIntList ps with
      | .error e => .error e
      | .ok vs => .ok (v :: vs)

/-- The length dispatch of `time_stamp_to_seconds` (lines 198-207):
1 to 4 groups are weighted positionally, anything else raises. -/
def secondsOfParts (parts : List Int) (orig : String) : Except PyError Int :=
  match parts with
  | [a] => .ok a
  | [a, b] => .ok (a * 60 + b)
  | [a, b, c] => .ok (a * 3600 + b * 60 + c)
  | [a, b, c, d] => .ok (a * 86400 + b * 3600 + c * 60 + d)
  | _ => .error (.unsupportedTimestamp orig)

/-- `time_stamp_to_seconds` (`split.py`, lines 195-207). -/
def time_stamp_to_seconds (ts : String) : Except PyError Int :=
  match pyIntList (splitColon ts) with
  | .error e => .error e
  | .ok parts => secondsOfParts parts ts

/-! ### A backtracking regular-expression engine

Faithful to CPython `re` backtracking order for the constructs used by
`CONFIG_PATTERN` and `ALT_CONFIG_PATTERN`: a greedy quantifier tries the
longer alternative first, a lazy one the shorter, and `re.search` returns
the match at the leftmost possible start offset. Group captures record
the text consumed by the group on the accepted path. -/

/-- Regular-expression abstract syntax (only the constructs the two
config patterns need). -/
inductive RE where
  /-- Matches the empty string. -/
  | eps : RE
  /-- `$` (no trailing newline occurs here: lines are stripped). -/
  | eos : RE
  /-- A character class. -/
  | cls : (Char → Bool) → RE
  /-- Concatenation. -/
  | seq : RE → RE → RE
  /-- Greedy `{0,1}`. -/
  | opt : RE → RE
  /-- Greedy `*`. -/
  | star : RE → RE
  /-- Lazy `*?`. -/
  | starL : RE → RE
  /-- Numbered capture group. -/
  | grp : Nat → RE → RE

/-- Greedy `+`, as one copy followed by a greedy star. -/
def rePlus (r : RE) : RE := .seq r (.star r)

/-- Backtracking matcher in continuation-passing style: `reRun fuel r s
caps k` tries to match `r` at the start of `s`, extending captures
`caps`, and calls `k` on the rest; alternatives are tried in Python's
priority order and the first overall success wins. `fuel` bounds the
depth of nested calls (every recursive call strictly decreases it); the
concrete evaluations below use fuel far above the depth those inputs
reach, so exhaustion never fires there. -/
def reRun : Nat → RE → List Char → List (Nat × String) →
    (List Char → List (Nat × String) → Option (List (Nat × String))) →
    Option (List (Nat × String))
  | 0, _, _, _, _ => none
  | fuel + 1, r, s, caps, k =>
    match r with
    | .eps => k s caps
    | .eos => if s.isEmpty then k s caps else none
    | .cls p =>
      match s with
      | [] => none
      | c :: rest => if p c then k rest caps else none
    | .seq a b => reRun fuel a s caps fun s1 c1 => reRun fuel b s1 c1 k
    | .opt a =>
      match reRun fuel a s caps k with
      | some res => some res
      | none => k s caps
    | .star a =>
      match reRun fuel a s caps (fun s1 c1 => reRun fuel (.star a) s1 c1 k) with
      | some res => some res
      | none => k s caps
    | .starL a =>
      match k s caps with
      | some res => some res
      | none => reRun fuel a s caps fun s1 c1 => reRun fuel (.starL a) s1 c1 k
    | .grp i a =>
      reRun fuel a s caps fun s1 c1 =>
        k s1 ((i, String.mk (s.take (s.length - s1.length))) :: c1)

/-- Attempt a match anchored at the start of `s`. -/
def reTry (r : RE) (s : List Char) : Option (List (Nat × String)) :=
  reRun (1000 + 8 * s.length) r s [] fun _ caps => some caps

/-- Try every start offset left to right (the `re.search` scan). -/
def reSearchFrom (r : RE) : List Char → Option (List (Nat × String))
  | [] => reTry r []
  | c :: rest =>
    match reTry r (c :: rest) with
    | some caps => some caps
    | none => reSearchFrom r rest

/-- Python `re.search(pattern, line)`, returning the capture list of the
leftmost match. -/
def pySearch (r : RE) (s : String) : Option (List (Nat × String)) :=
  reSearchFrom r s.data

/-- `match.group(i)`: the most recent capture of group `i` on the
accepted path (`""` for a group that did not participate; every group
read by the program always participates in a successful match). -/
def grpStr (caps : List (Nat × String)) (i : Nat) : String :=
  (caps.lookup i).getD ""

/-- ` [-\|]` — the optional separator: a space then `-` or `|`. -/
def sepRE : RE :=
  .seq (.cls fun c => c == ' ') (.cls fun c => c == '-' || c == '|')

/-- `\d` (ASCII digits; the inputs here are ASCII). -/
def digitRE : RE := .cls Char.isDigit

/-- `(\d{2}\:{0,1})` — one timestamp unit: two digits and an optional
colon — captured as group `i`. -/
def timeGrpRE (i : Nat) : RE :=
  .grp i (.seq digitRE (.seq digitRE (.opt (.cls fun c => c == ':'))))

/-- `.` — any character except a newline. -/
def dotRE : RE := .cls fun c => c != '\n'

/-- `CONFIG_PATTERN` (`split.py`, line 17):
`#{0,1}(\d+)( [-\|]){0,1} (.*?)( [-\|]){0,1} ((\d{2}\:{0,1})+)`. -/
def configRE : RE :=
  .seq (.opt (.cls fun c => c == '#'))
  (.seq (.grp 1 (rePlus digitRE))
  (.seq (.opt (.grp 2 sepRE))
  (.seq (.cls fun c => c == ' ')
  (.seq (.grp 3 (.starL dotRE))
  (.seq (.opt (.grp 4 sepRE))
  (.seq (.cls fun c => c == ' ')
  (.grp 5 (rePlus (timeGrpRE 6)))))))))

/-- `ALT_CONFIG_PATTERN` (`split.py`, line 21):
`((\d{2}\:{0,1})+)( [-\|]){0,1} (.*?)$`. -/
def altRE : RE :=
  .seq (.grp 1 (rePlus (timeGrpRE 2)))
  (.seq (.opt (.grp 3 sepRE))
  (.seq (.cls fun c => c == ' ')
  (.seq (.grp 4 (.starL dotRE)) .eos)))

/-- The line classifier (`split.py`, lines 157-169): try the primary
pattern; on success read groups 1 (number), 3 (title), 5 (timestamp);
otherwise try the alternate pattern and read groups 4 (title) and
1 (timestamp) with no number (the caller fills in the line number).
Group 1 of the primary pattern is a nonempty digit run, so `int()` on it
cannot fail; `getD 0` is never the taken branch. -/
def classifyLine (line : String) : Option (Option Int × String × String) :=
  match pySearch configRE line with
  | some caps =>
    some (some ((pyInt (grpStr caps 1)).getD 0), grpStr caps 3, grpStr caps 5)
  | none =>
    match pySearch altRE line with
    | some caps => some (none, grpStr caps 4, grpStr caps 1)
    | none => none

/-! ### Track descriptors and the sequencing pass -/

/-- `TrackInfo` (`split.py`, lines 24-51), fields in constructor order.
`endWrites` is ghost instrumentation absent from the source: it counts
the calls of `set_track_end` applied to this descriptor, so that
"`track_end` is written exactly once" is statable; no source behaviour
depends on it. -/
structure TrackInfo where
  name : String
  track_number : Int
  track_start : Int
  track_end : Option Int
  album : String
  artist : Option String
  composer : Option String
  total_discs : Option Int
  disc_number : Option Int
  /-- Ghost write counter, 0 at construction. -/
  endWrites : Nat
  deriving DecidableEq, Repr

/-- `set_track_end` (`split.py`, lines 49-51). The parameter is optional
because Python enforces no annotation and line 190 passes the possibly
absent duration. Also bumps the ghost write counter. -/
def TrackInfo.set_track_end (t : TrackInfo) (time_end : Option Int) : TrackInfo :=
  { t with track_end := time_end, endWrites := t.endWrites + 1 }

/-- `tracks[-1].set_track_end e` guarded by `if tracks:` — mutate the
last element when the list is nonempty (lines 173-174 and 189-190). -/
def setLastEnd : List TrackInfo → Option Int → List TrackInfo
  | [], _ => []
  | [t], e => [t.set_track_end e]
  | t :: rest, e => t :: setLastEnd rest e

/-- The descriptor constructed at lines 176-187: stripped title, absent
end, pass-through metadata. -/
def mkTrack (album : String) (composer : Option String)
    (total_discs disc_number : Option Int) (artist : Option String)
    (num : Int) (nm : String) (sec : Int) : TrackInfo :=
  { name := pyStrip nm, track_number := num, track_start := sec,
    track_end := none, album := album, artist := artist,
    composer := composer, total_discs := total_discs,
    disc_number := disc_number, endWrites := 0 }

/-- One loop-body step after a successful classify and conversion
(lines 173-187): close the previous descriptor with this timestamp, then
append the new open one. -/
def stepTrack (album : String) (composer : Option String)
    (total_discs disc_number : Option Int) (artist : Option String)
    (num : Int) (nm : String) (sec : Int) (acc : List TrackInfo) :
    List TrackInfo :=
  setLastEnd acc (some sec) ++
    [mkTrack album composer total_discs disc_number artist num nm sec]

/-- The `for line_number, line in enumerate(f, 1)` loop of `process_conf`
(lines 152-187): strip, skip blanks, classify, convert, step; the first
failure aborts with its exception. `n` is the 1-based number of the next
line. -/
def processLines (album : String) (composer : Option String)
    (total_discs disc_number : Option Int) (artist : Option String) :
    Nat → List String → List TrackInfo → Except PyError (List TrackInfo)
  | _, [], acc => .ok acc
  | n, l :: ls, acc =>
    let line := pyStrip l
    if line = "" then
      processLines album composer total_discs disc_number artist (n + 1) ls acc
    else
      match classifyLine line with
      | none => .error (.lineParse n line)
      | some (numOpt, nm, ts) =>
        match time_stamp_to_seconds ts with
        | .error e => .error e
        | .ok sec =>
          processLines album composer total_discs disc_number artist (n + 1) ls
            (stepTrack album composer total_discs disc_number artist
              (numOpt.getD (Int.ofNat n)) nm sec acc)

/-- `process_conf` (`split.py`, lines 137-192) on an already-read list of
lines (file I/O and the `FileNotFoundError` path stay with the caller):
run the loop, then close the last descriptor with the supplied duration
(which may be absent). -/
def process_conf (lines : List String) (album : String)
    (duration : Option Int) (composer : Option String)
    (total_discs disc_number : Option Int) (artist : Option String) :
    Except PyError (List TrackInfo) :=
  match processLines album composer total_discs disc_number artist 1 lines [] with
  | .error e => .error e
  | .ok tracks => .ok (setLastEnd tracks duration)

/-! ### Predicates used to state the claims -/

/-- Adjacent-boundary property: each descriptor's end is the next one's
start. -/
def boundaryChain (acc : List TrackInfo) : Prop :=
  List.Chain' (fun x y => x.track_end = some y.track_start) acc

/-- The sequencing invariant of the accumulator: the boundary chain
holds, every descriptor but the last is closed and has been written
exactly once, and the most recently appended descriptor is the single
open one (absent `track_end`, never written). -/
def SeqInv (acc : List TrackInfo) : Prop :=
  boundaryChain acc ∧
  (∀ t ∈ acc.dropLast, t.track_end.isSome = true ∧ t.endWrites = 1) ∧
  (∀ t ∈ acc.getLast?, t.track_end = none ∧ t.endWrites = 0)

/-- A line the loop gets past without raising: blank after stripping, or
classified with a timestamp that converts successfully. -/
def lineGood (l : String) : Bool :=
  if pyStrip l = "" then true
  else
    match classifyLine (pyStrip l) with
    | none => false
    | some (_, _, ts) =>
      match time_stamp_to_seconds ts with
      | .ok _ => true
      | .error _ => false

/-- The 1-based file positions (blank lines counted) of the non-blank
lines, starting the count at `n`. -/
def nonBlankIdx : Nat → List String → List Int
  | _, [] => []
  | n, l :: ls =>
    if pyStrip l = "" then nonBlankIdx (n + 1) ls
    else Int.ofNat n :: nonBlankIdx (n + 1) ls

/-! ### Helper lemmas -/

lemma list_eq_nil_or_append {α : Type} (l : List α) :
    l = [] ∨ ∃ L t, l = L ++ [t] := by
  rcases List.eq_nil_or_concat l with h | ⟨L, t, h⟩
  · exact Or.inl h
  · exact Or.inr ⟨L, t, by rw [h, List.concat_eq_append]⟩

lemma setLastEnd_concat (l : List TrackInfo) (t : TrackInfo) (e : Option Int) :
    setLastEnd (l ++ [t]) e = l ++ [t.set_track_end e] := by
  induction l with
  | nil => rfl
  | cons a l ih =>
    cases l with
    | nil => rfl
    | cons b l2 =>
      simp only [List.cons_append, List.append_eq, setLastEnd] at ih ⊢
      rw [ih]

lemma setLastEnd_map_number (acc : List TrackInfo) (e : Option Int) :
    (setLastEnd acc e).map TrackInfo.track_number =
      acc.map TrackInfo.track_number := by
  rcases list_eq_nil_or_append acc with rfl | ⟨L, t, rfl⟩
  · rfl
  · rw [setLastEnd_concat]
    simp [TrackInfo.set_track_end]

lemma seqInv_nil : SeqInv [] := by
  refine ⟨?_, ?_, ?_⟩ <;> simp [boundaryChain]

lemma boundaryChain_concat_set {L : List TrackInfo} {t : TrackInfo}
    (e : Option Int) (h : boundaryChain (L ++ [t])) :
    boundaryChain (L ++ [t.set_track_end e]) := by
  unfold boundaryChain at h ⊢
  rw [List.chain'_append] at h ⊢
  refine ⟨h.1, List.chain'_singleton _, ?_⟩
  intro x hx y hy
  simp only [List.head?_cons, Option.mem_def, Option.some.injEq] at hy
  subst hy
  exact h.2.2 x hx t (by simp)

lemma stepTrack_inv (alb : String) (c : Option String) (td dn : Option Int)
    (a : Option String) (num : Int) (nm : String) (sec : Int)
    (acc : List TrackInfo) (h : SeqInv acc) :
    SeqInv (stepTrack alb c td dn a num nm sec acc) := by
  obtain ⟨hchain, hclosed, hlast⟩ := h
  rcases list_eq_nil_or_append acc with rfl | ⟨L, t, rfl⟩
  · refine ⟨?_, ?_, ?_⟩ <;>
      simp [stepTrack, setLastEnd, boundaryChain, mkTrack]
  · have ht : t.track_end = none ∧ t.endWrites = 0 := hlast t (by simp)
    unfold stepTrack
    rw [setLastEnd_concat]
    refine ⟨?_, ?_, ?_⟩
    · unfold boundaryChain
      rw [List.chain'_append]
      refine ⟨boundaryChain_concat_set _ hchain, List.chain'_singleton _, ?_⟩
      intro x hx y hy
      rw [List.getLast?_concat] at hx
      simp only [Option.mem_def, Option.some.injEq] at hx
      simp only [List.head?_cons, Option.mem_def, Option.some.injEq] at hy
      subst hx; subst hy
      simp [TrackInfo.set_track_end, mkTrack]
    · intro x hx
      rw [List.dropLast_concat] at hx
      rcases List.mem_append.mp hx with hxL | hxT
      · exact hclosed x (by rw [List.dropLast_concat]; exact hxL)
      · simp only [List.mem_singleton] at hxT
        subst hxT
        refine ⟨by simp [TrackInfo.set_track_end], ?_⟩
        simp [TrackInfo.set_track_end, ht.2]
    · intro x hx
      rw [List.getLast?_concat] at hx
      simp only [Option.mem_def, Option.some.injEq] at hx
      subst hx
      simp [mkTrack]

lemma processLines_inv (alb : String) (c : Option String)
    (td dn : Option Int) (a : Option String) :
    ∀ (ls : List String) (n : Nat) (acc out : List TrackInfo),
      SeqInv acc →
      processLines alb c td dn a n ls acc = .ok out → SeqInv out := by
  intro ls
  induction ls with
  | nil =>
    intro n acc out h hok
    cases hok
    exact h
  | cons l ls ih =>
    intro n acc out h hok
    simp only [processLines] at hok
    split at hok
    · exact ih (n + 1) acc out h hok
    · split at hok
      · cases hok
      · split at hok
        · cases hok
        · exact ih (n + 1) _ out (stepTrack_inv _ _ _ _ _ _ _ _ _ h) hok

lemma processLines_ne_nil (alb : String) (c : Option String)
    (td dn : Option Int) (a : Option String) :
    ∀ (ls : List String) (n : Nat) (acc out : List TrackInfo),
      processLines alb c td dn a n ls acc = .ok out →
      ((∃ l ∈ ls, pyStrip l ≠ "") ∨ acc ≠ []) → out ≠ [] := by
  intro ls
  induction ls with
  | nil =>
    intro n acc out hok hne
    cases hok
    rcases hne with ⟨l, hl, _⟩ | h
    · exact absurd hl (List.not_mem_nil l)
    · exact h
  | cons l ls ih =>
    intro n acc out hok hne
    simp only [processLines] at hok
    split at hok
    case isTrue hblank =>
      refine ih (n + 1) acc out hok ?_
      rcases hne with ⟨x, hx, hxne⟩ | h
      · rcases List.mem_cons.mp hx with rfl | hx2
        · exact absurd hblank hxne
        · exact Or.inl ⟨x, hx2, hxne⟩
      · exact Or.inr h
    case isFalse hnb =>
      split at hok
      · cases hok
      · split at hok
        · cases hok
        · refine ih (n + 1) _ out hok (Or.inr ?_)
          simp [stepTrack]

lemma processLines_all_blank (alb : String) (c : Option String)
    (td dn : Option Int) (a : Option String) :
    ∀ (ls : List String) (n : Nat) (acc : List TrackInfo),
      (∀ l ∈ ls, pyStrip l = "") →
      processLines alb c td dn a n ls acc = .ok acc := by
  intro ls
  induction ls with
  | nil => intro n acc _; rfl
  | cons l ls ih =>
    intro n acc h
    simp only [processLines]
    split
    case isTrue =>
      exact ih (n + 1) acc fun x hx => h x (List.mem_cons_of_mem l hx)
    case isFalse hf => exact absurd (h l (List.mem_cons_self l ls)) hf

lemma processLines_skip_blank (alb : String) (c : Option String)
    (td dn : Option Int) (a : Option String) :
    ∀ (pre rest : List String) (n : Nat) (acc : List TrackInfo),
      (∀ x ∈ pre, pyStrip x = "") →
      processLines alb c td dn a n (pre ++ rest) acc =
        processLines alb c td dn a (n + pre.length) rest acc := by
  intro pre
  induction pre with
  | nil => intro rest n acc _; simp
  | cons l pre ih =>
    intro rest n acc h
    simp only [List.cons_append, List.append_eq, processLines]
    split
    next =>
      rw [ih rest (n + 1) acc fun x hx => h x (List.mem_cons_of_mem l hx)]
      have harith : n + 1 + pre.length = n + (l :: pre).length := by
        simp [List.length_cons]; omega
      rw [harith]
    next hf => exact absurd (h l (List.mem_cons_self l pre)) hf

lemma processLines_skip_good (alb : String) (c : Option String)
    (td dn : Option Int) (a : Option String) :
    ∀ (pre : List String) (n : Nat) (acc : List TrackInfo),
      (∀ x ∈ pre, lineGood x = true) →
      ∃ acc2, ∀ rest,
        processLines alb c td dn a n (pre ++ rest) acc =
          processLines alb c td dn a (n + pre.length) rest acc2 := by
  intro pre
  induction pre with
  | nil => intro n acc _; exact ⟨acc, fun rest => by simp⟩
  | cons l pre ih =>
    intro n acc h
    have hl := h l (List.mem_cons_self l pre)
    unfold lineGood at hl
    have harith : n + 1 + pre.length = n + (l :: pre).length := by
      simp [List.length_cons]; omega
    by_cases hb : pyStrip l = ""
    · obtain ⟨acc2, hacc2⟩ :=
        ih (n + 1) acc fun x hx => h x (List.mem_cons_of_mem l hx)
      refine ⟨acc2, fun rest => ?_⟩
      simp only [List.cons_append, List.append_eq, processLines]
      split
      next => rw [hacc2 rest, harith]
      next hf => exact absurd hb hf
    · rw [if_neg hb] at hl
      cases hc : classifyLine (pyStrip l) with
      | none =>
        simp only [hc] at hl
        exact absurd hl (by simp)
      | some trip =>
        obtain ⟨numOpt, nm, ts⟩ := trip
        simp only [hc] at hl
        cases hts : time_stamp_to_seconds ts with
        | error e =>
          simp only [hts] at hl
          exact absurd hl (by simp)
        | ok sec =>
          obtain ⟨acc2, hacc2⟩ :=
            ih (n + 1)
              (stepTrack alb c td dn a (numOpt.getD (Int.ofNat n)) nm sec acc)
              fun x hx => h x (List.mem_cons_of_mem l hx)
          refine ⟨acc2, fun rest => ?_⟩
          simp only [List.cons_append, List.append_eq, processLines]
          split
          next hbt => exact absurd hbt hb
          next =>
            simp only [hc, hts]
            rw [hacc2 rest, harith]

lemma processLines_numbers (alb : String) (c : Option String)
    (td dn : Option Int) (a : Option String) :
    ∀ (ls : List String) (n : Nat) (acc out : List TrackInfo),
      (∀ l ∈ ls, pyStrip l ≠ "" → pySearch configRE (pyStrip l) = none) →
      processLines alb c td dn a n ls acc = .ok out →
      out.map TrackInfo.track_number =
        acc.map TrackInfo.track_number ++ nonBlankIdx n ls := by
  intro ls
  induction ls with
  | nil =>
    intro n acc out _ hok
    cases hok
    simp [nonBlankIdx]
  | cons l ls ih =>
    intro n acc out h hok
    simp only [processLines] at hok
    by_cases hb : pyStrip l = ""
    · rw [if_pos hb] at hok
      rw [ih (n + 1) acc out (fun x hx hne => h x (List.mem_cons_of_mem l hx) hne) hok]
      simp [nonBlankIdx, hb]
    · rw [if_neg hb] at hok
      have hcfg := h l (List.mem_cons_self l ls) hb
      cases hc : classifyLine (pyStrip l) with
      | none =>
        simp only [hc] at hok
        cases hok
      | some trip =>
        obtain ⟨numOpt, nm, ts⟩ := trip
        have hnum : numOpt = none := by
          unfold classifyLine at hc
          rw [hcfg] at hc
          cases ha : pySearch altRE (pyStrip l) with
          | none =>
            simp only [ha] at hc
            exact absurd hc (by simp)
          | some caps =>
            simp only [ha, Option.map_some, Option.some.injEq,
              Prod.mk.injEq] at hc
            exact hc.1.symm
        subst hnum
        simp only [hc] at hok
        cases hts : time_stamp_to_seconds ts with
        | error e =>
          simp only [hts] at hok
          cases hok
        | ok sec =>
          simp only [hts] at hok
          rw [ih (n + 1) _ out (fun x hx hne => h x (List.mem_cons_of_mem l hx) hne) hok]
          simp [stepTrack, setLastEnd_map_number, mkTrack, nonBlankIdx, hb]

lemma pyIntList_all_some :
    ∀ (ps : List String), (∀ p ∈ ps, (pyInt p).isSome = true) →
      ∃ vs : List Int, pyIntList ps = .ok vs ∧ vs.length = ps.length := by
  intro ps
  induction ps with
  | nil => intro _; exact ⟨[], rfl, rfl⟩
  | cons p ps ih =>
    intro h
    have hp := h p (List.mem_cons_self p ps)
    obtain ⟨v, hv⟩ := Option.isSome_iff_exists.mp hp
    obtain ⟨vs, hvs, hlen⟩ := ih fun x hx => h x (List.mem_cons_of_mem p hx)
    exact ⟨v :: vs, by simp only [pyIntList, hv, hvs], by simp [hlen]⟩

lemma splitColonChars_ne_nil : ∀ cs : List Char, splitColonChars cs ≠ [] := by
  intro cs
  induction cs with
  | nil => simp [splitColonChars]
  | cons c cs ih =>
    simp only [splitColonChars]
    split
    · simp
    · split <;> simp

lemma splitColon_ne_nil (s : String) : splitColon s ≠ [] := by
  unfold splitColon
  simp [splitColonChars_ne_nil]

lemma secondsOfParts_ok_of_len (vs : List Int) (s : String)
    (h1 : 1 ≤ vs.length) (h4 : vs.length ≤ 4) :
    ∃ n : Int, secondsOfParts vs s = .ok n := by
  cases vs with
  | nil => simp at h1
  | cons a vs =>
    cases vs with
    | nil => exact ⟨a, rfl⟩
    | cons b vs =>
      cases vs with
      | nil => exact ⟨a * 60 + b, rfl⟩
      | cons c2 vs =>
        cases vs with
        | nil => exact ⟨a * 3600 + b * 60 + c2, rfl⟩
        | cons d vs =>
          cases vs with
          | nil => exact ⟨a * 86400 + b * 3600 + c2 * 60 + d, rfl⟩
          | cons e vs =>
            simp only [List.length_cons] at h4
            omega

lemma secondsOfParts_err_of_len (vs : List Int) (s : String)
    (h5 : 5 ≤ vs.length) :
    secondsOfParts vs s = .error (.unsupportedTimestamp s) := by
  cases vs with
  | nil =>
    simp only [List.length_nil] at h5
    exact absurd h5 (by decide)
  | cons a vs =>
    cases vs with
    | nil =>
      simp only [List.length_cons, List.length_nil] at h5
      exact absurd h5 (by decide)
    | cons b vs =>
      cases vs with
      | nil =>
        simp only [List.length_cons, List.length_nil] at h5
        exact absurd h5 (by decide)
      | cons c2 vs =>
        cases vs with
        | nil =>
          simp only [List.length_cons, List.length_nil] at h5
          exact absurd h5 (by decide)
        | cons d vs =>
          cases vs with
          | nil =>
            simp only [List.length_cons, List.length_nil] at h5
            exact absurd h5 (by decide)
          | cons e vs => rfl

/-! ### The claims -/

/-- C1: for every config whose lines all process successfully, with at
least one non-blank line and a supplied total duration, every descriptor
has a non-absent `track_end`, each adjacent pair satisfies
`track_end = next track_start`, and the last descriptor's `track_end`
is the supplied total duration. -/
theorem C1_boundary_completeness
    (lines : List String) (alb : String) (d : Int) (c : Option String)
    (td dn : Option Int) (a : Option String) (tracks : List TrackInfo)
    (hok : process_conf lines alb (some d) c td dn a = .ok tracks)
    (hne : ∃ l ∈ lines, pyStrip l ≠ "") :
    (∀ t ∈ tracks, t.track_end.isSome = true) ∧
    List.Chain' (fun x y => x.track_end = some y.track_start) tracks ∧
    (∀ t ∈ tracks.getLast?, t.track_end = some d) := by
  cases hpl : processLines alb c td dn a 1 lines [] with
  | error e =>
    simp only [process_conf, hpl] at hok
    cases hok
  | ok out =>
    simp only [process_conf, hpl] at hok
    injection hok with hok2
    subst hok2
    have hinv := processLines_inv alb c td dn a lines 1 [] out seqInv_nil hpl
    have hnn := processLines_ne_nil alb c td dn a lines 1 [] out hpl (Or.inl hne)
    rcases list_eq_nil_or_append out with rfl | ⟨L, t, rfl⟩
    · exact absurd rfl hnn
    · obtain ⟨hchain, hclosed, hlast⟩ := hinv
      rw [setLastEnd_concat]
      refine ⟨?_, ?_, ?_⟩
      · intro x hx
        rcases List.mem_append.mp hx with hxL | hxT
        · exact (hclosed x (by rw [List.dropLast_concat]; exact hxL)).1
        · simp only [List.mem_singleton] at hxT
          subst hxT
          simp [TrackInfo.set_track_end]
      · exact boundaryChain_concat_set _ hchain
      · intro x hx
        rw [List.getLast?_concat] at hx
        simp only [Option.mem_def, Option.some.injEq] at hx
        subst hx
        simp [TrackInfo.set_track_end]

/-- Witness for C1 at the concrete config `["00:00 A", "00:10 B"]` with
total duration 20. -/
theorem C1_witness :
    (∀ t ∈ ([{ name := "A", track_number := 1, track_start := 0,
               track_end := some 10, album := "alb", artist := none,
               composer := none, total_discs := none, disc_number := none,
               endWrites := 1 },
             { name := "B", track_number := 2, track_start := 10,
               track_end := some 20, album := "alb", artist := none,
               composer := none, total_discs := none, disc_number := none,
               endWrites := 1 }] : List TrackInfo),
        t.track_end.isSome = true) ∧
    List.Chain' (fun x y => x.track_end = some y.track_start)
      ([{ name := "A", track_number := 1, track_start := 0,
          track_end := some 10, album := "alb", artist := none,
          composer := none, total_discs := none, disc_number := none,
          endWrites := 1 },
        { name := "B", track_number := 2, track_start := 10,
          track_end := some 20, album := "alb", artist := none,
          composer := none, total_discs := none, disc_number := none,
          endWrites := 1 }] : List TrackInfo) ∧
    (∀ t ∈ ([{ name := "A", track_number := 1, track_start := 0,
               track_end := some 10, album := "alb", artist := none,
               composer := none, total_discs := none, disc_number := none,
               endWrites := 1 },
             { name := "B", track_number := 2, track_start := 10,
               track_end := some 20, album := "alb", artist := none,
               composer := none, total_discs := none, disc_number := none,
               endWrites := 1 }] : List TrackInfo).getLast?,
        t.track_end = some 20) :=
  C1_boundary_completeness ["00:00 A", "00:10 B"] "alb" 20 none none none none
    _ rfl ⟨"00:00 A", by simp, by decide⟩

/-- C2: `time_stamp_to_seconds` is purely positional-weighted summation
with no group-range validation: 1 group gives the group itself, 2 groups
give `60*m + s` (even for a minutes group of 90), 3 give
`3600*h + 60*m + s`, 4 give `86400*d + 3600*h + 60*m + s`; in particular
the four concrete conversions of the claim hold, and "90:03" is accepted
as 5403. -/
theorem C2_timestamp_positional :
    (∀ (s g1 : String) (m1 : Int), splitColon s = [g1] →
        pyInt g1 = some m1 → time_stamp_to_seconds s = .ok m1) ∧
    (∀ (s g1 g2 : String) (m1 m2 : Int), splitColon s = [g1, g2] →
        pyInt g1 = some m1 → pyInt g2 = some m2 →
        time_stamp_to_seconds s = .ok (m1 * 60 + m2)) ∧
    (∀ (s g1 g2 g3 : String) (m1 m2 m3 : Int),
        splitColon s = [g1, g2, g3] →
        pyInt g1 = some m1 → pyInt g2 = some m2 → pyInt g3 = some m3 →
        time_stamp_to_seconds s = .ok (m1 * 3600 + m2 * 60 + m3)) ∧
    (∀ (s g1 g2 g3 g4 : String) (m1 m2 m3 m4 : Int),
        splitColon s = [g1, g2, g3, g4] →
        pyInt g1 = some m1 → pyInt g2 = some m2 → pyInt g3 = some m3 →
        pyInt g4 = some m4 →
        time_stamp_to_seconds s =
          .ok (m1 * 86400 + m2 * 3600 + m3 * 60 + m4)) ∧
    time_stamp_to_seconds "02:03" = .ok 123 ∧
    time_stamp_to_seconds "01:02:03" = .ok 3723 ∧
    time_stamp_to_seconds "59" = .ok 59 ∧
    time_stamp_to_seconds "1:02:03:04" = .ok 93784 ∧
    time_stamp_to_seconds "90:03" = .ok 5403 := by
  refine ⟨?_, ?_, ?_, ?_, rfl, rfl, rfl, rfl, rfl⟩
  · intro s g1 m1 h h1
    unfold time_stamp_to_seconds
    rw [h]
    simp only [pyIntList, h1]
    rfl
  · intro s g1 g2 m1 m2 h h1 h2
    unfold time_stamp_to_seconds
    rw [h]
    simp only [pyIntList, h1, h2]
    rfl
  · intro s g1 g2 g3 m1 m2 m3 h h1 h2 h3
    unfold time_stamp_to_seconds
    rw [h]
    simp only [pyIntList, h1, h2, h3]
    rfl
  · intro s g1 g2 g3 g4 m1 m2 m3 m4 h h1 h2 h3 h4
    unfold time_stamp_to_seconds
    rw [h]
    simp only [pyIntList, h1, h2, h3, h4]
    rfl

/-- Witness for C2: the two-group clause applied to "90:03". -/
theorem C2_witness : time_stamp_to_seconds "90:03" = .ok (90 * 60 + 3) :=
  C2_timestamp_positional.2.1 "90:03" "90" "03" 90 3 rfl rfl rfl

/-- C3 counterexample: in the config `["", "00:10 Foo"]` the alternate
line is the 1st non-empty line, yet its `track_number` is 2 (the raw
file line number), not 1. -/
theorem C3_counterexample :
    process_conf ["", "00:10 Foo"] "alb" (some 60) none none none none =
      .ok [{ name := "Foo", track_number := 2, track_start := 10,
             track_end := some 60, album := "alb", artist := none,
             composer := none, total_discs := none, disc_number := none,
             endWrites := 1 }] ∧
    (2 : Int) ≠ 1 := ⟨rfl, by decide⟩

/-- C3 (amended): for alternate-syntax-only configs the descriptors'
track numbers are the 1-based file positions of the non-blank lines,
counting blank lines as well (so the k-th non-empty line gets k only
when no blank line precedes it). -/
theorem C3_track_number_file_position
    (lines : List String) (alb : String) (dur : Option Int)
    (c : Option String) (td dn : Option Int) (a : Option String)
    (tracks : List TrackInfo)
    (halt : ∀ l ∈ lines, pyStrip l ≠ "" → pySearch configRE (pyStrip l) = none)
    (hok : process_conf lines alb dur c td dn a = .ok tracks) :
    tracks.map TrackInfo.track_number = nonBlankIdx 1 lines := by
  cases hpl : processLines alb c td dn a 1 lines [] with
  | error e =>
    simp only [process_conf, hpl] at hok
    cases hok
  | ok out =>
    simp only [process_conf, hpl] at hok
    injection hok with hok2
    subst hok2
    rw [setLastEnd_map_number]
    have hnum := processLines_numbers alb c td dn a lines 1 [] out halt hpl
    simpa using hnum

/-- Witness for C3 at the config `["00:05 A", "", "00:10 B"]`: track
numbers [1, 3]. -/
theorem C3_witness :
    List.map TrackInfo.track_number
      ([{ name := "A", track_number := 1, track_start := 5,
          track_end := some 10, album := "alb", artist := none,
          composer := none, total_discs := none, disc_number := none,
          endWrites := 1 },
        { name := "B", track_number := 3, track_start := 10,
          track_end := some 20, album := "alb", artist := none,
          composer := none, total_discs := none, disc_number := none,
          endWrites := 1 }] : List TrackInfo) =
      nonBlankIdx 1 ["00:05 A", "", "00:10 B"] :=
  C3_track_number_file_position ["00:05 A", "", "00:10 B"] "alb" (some 20)
    none none none none _ (by decide) rfl

/-- C4 counterexample: the config `["02: Song", "!!!"]` contains a line
matching neither grammar (line 2), yet processing fails at line 1 — its
alternate-syntax timestamp "02:" splits into ["02", ""] and `int("")`
raises — with an integer-parse error that carries no line number. -/
theorem C4_counterexample :
    process_conf ["02: Song", "!!!"] "alb" (some 9) none none none none =
      .error (.intParse "") ∧
    classifyLine "!!!" = none ∧
    PyError.intParse "" ≠ PyError.lineParse 2 "!!!" := ⟨rfl, rfl, by decide⟩

/-- C4 (amended): if every line before the first matching-neither line
is blank or parses with a convertible timestamp, processing fails at
that line with an error carrying its 1-based line number and stripped
text, and no descriptor list is returned; an earlier line whose matched
timestamp fails integer conversion preempts this with an integer-parse
error instead. -/
theorem C4_first_unmatched_line
    (pre : List String) (bad : String) (rest : List String) (alb : String)
    (dur : Option Int) (c : Option String) (td dn : Option Int)
    (a : Option String)
    (hpre : ∀ l ∈ pre, lineGood l = true)
    (hb : pyStrip bad ≠ "")
    (hcl : classifyLine (pyStrip bad) = none) :
    process_conf (pre ++ bad :: rest) alb dur c td dn a =
      .error (.lineParse (1 + pre.length) (pyStrip bad)) := by
  obtain ⟨acc2, hacc2⟩ := processLines_skip_good alb c td dn a pre 1 [] hpre
  have hstep : processLines alb c td dn a (1 + pre.length) (bad :: rest) acc2 =
      .error (.lineParse (1 + pre.length) (pyStrip bad)) := by
    simp only [processLines, hcl]
    rw [if_neg hb]
  unfold process_conf
  rw [hacc2 (bad :: rest), hstep]

/-- Witness for C4 at the config `["1 - Intro - 00:00", "???", "x"]`:
failure at line 2. -/
theorem C4_witness :
    process_conf ["1 - Intro - 00:00", "???", "x"] "a" (some 5)
        none none none none =
      .error (.lineParse 2 "???") :=
  C4_first_unmatched_line ["1 - Intro - 00:00"] "???" ["x"] "a" (some 5)
    none none none none (by decide) (by decide) rfl

/-- C5: the end-to-end scenario: three primary-syntax lines with total
duration 720 give starts [0, 195, 640], ends [195, 640, 720], names
["Intro", "Main", "Outro"] and numbers [1, 2, 3]. -/
theorem C5_end_to_end :
    process_conf ["1 - Intro - 00:00", "2 - Main - 03:15",
        "3 - Outro - 10:40"] "alb" (some 720) none none none none =
      .ok [{ name := "Intro", track_number := 1, track_start := 0,
             track_end := some 195, album := "alb", artist := none,
             composer := none, total_discs := none, disc_number := none,
             endWrites := 1 },
           { name := "Main", track_number := 2, track_start := 195,
             track_end := some 640, album := "alb", artist := none,
             composer := none, total_discs := none, disc_number := none,
             endWrites := 1 },
           { name := "Outro", track_number := 3, track_start := 640,
             track_end := some 720, album := "alb", artist := none,
             composer := none, total_discs := none, disc_number := none,
             endWrites := 1 }] := rfl

/-- C6 counterexample: the empty timestamp string (the only candidate
for "0 colon-separated groups"; under Python split semantics it in fact
has one, empty, group) fails with an integer-parse error, not with the
UnsupportedTimestampFormat error — so "a 0-group string fails with that
error" and "for 1-4 groups no error is raised" both fail on it. -/
theorem C6_counterexample :
    time_stamp_to_seconds "" = .error (.intParse "") ∧
    PyError.intParse "" ≠ PyError.unsupportedTimestamp "" ∧
    (splitColon "").length = 1 := ⟨rfl, by decide, rfl⟩

/-- C6 (amended): for strings whose colon-separated groups all parse as
integers, `time_stamp_to_seconds` fails with the UnsupportedTimestampFormat
error (carrying the original string) exactly when there are at least 5
groups, and returns a value for 1-4 groups; the group count is never 0,
and a string with a non-integer group — such as the empty string — fails
earlier with an integer-parse error instead. -/
theorem C6_group_count :
    (∀ s : String, (∀ p ∈ splitColon s, (pyInt p).isSome = true) →
        ((time_stamp_to_seconds s = .error (.unsupportedTimestamp s)) ↔
          5 ≤ (splitColon s).length) ∧
        ((splitColon s).length ≤ 4 →
          ∃ n : Int, time_stamp_to_seconds s = .ok n)) ∧
    (∀ s : String, splitColon s ≠ []) ∧
    time_stamp_to_seconds "" = .error (.intParse "") := by
  refine ⟨?_, splitColon_ne_nil, rfl⟩
  intro s hall
  obtain ⟨vs, hvs, hlen⟩ := pyIntList_all_some (splitColon s) hall
  have hts : time_stamp_to_seconds s = secondsOfParts vs s := by
    unfold time_stamp_to_seconds
    rw [hvs]
  have h1 : 1 ≤ vs.length := by
    rw [hlen]
    exact List.length_pos.mpr (splitColon_ne_nil s)
  constructor
  · constructor
    · intro herr
      by_contra hlt
      obtain ⟨n, hn⟩ := secondsOfParts_ok_of_len vs s h1 (by omega)
      rw [hts, hn] at herr
      cases herr
    · intro h5
      rw [hts]
      exact secondsOfParts_err_of_len vs s (by omega)
  · intro h4
    rw [hts]
    exact secondsOfParts_ok_of_len vs s h1 (by omega)

/-- Witness for C6: a 5-group string of integers fails with the
UnsupportedTimestampFormat error. -/
theorem C6_witness :
    time_stamp_to_seconds "01:02:03:04:05" =
      .error (.unsupportedTimestamp "01:02:03:04:05") :=
  ((C6_group_count.1 "01:02:03:04:05" (by decide)).1).mpr (by decide)

/-- C7: the classifier tries the primary grammar first and reads its
capture groups when it matches; the alternate grammar is consulted only
when the primary search fails; on the line "01 - Intro - 02:03", which
both grammars match with different readings, the primary interpretation
wins. -/
theorem C7_primary_priority :
    (∀ (line : String) (caps : List (Nat × String)),
        pySearch configRE line = some caps →
        classifyLine line =
          some (some ((pyInt (grpStr caps 1)).getD 0), grpStr caps 3,
            grpStr caps 5)) ∧
    (∀ line : String, pySearch configRE line = none →
        classifyLine line =
          (pySearch altRE line).map
            (fun caps => (none, grpStr caps 4, grpStr caps 1))) ∧
    (pySearch configRE "01 - Intro - 02:03").isSome = true ∧
    (pySearch altRE "01 - Intro - 02:03").isSome = true ∧
    classifyLine "01 - Intro - 02:03" = some (some 1, "Intro", "02:03") ∧
    (pySearch altRE "01 - Intro - 02:03").map
        (fun caps => ((none : Option Int), grpStr caps 4, grpStr caps 1)) =
      some (none, "Intro - 02:03", "01") := by
  refine ⟨?_, ?_, rfl, rfl, rfl, rfl⟩
  · intro line caps h
    unfold classifyLine
    rw [h]
  · intro line h
    unfold classifyLine
    rw [h]
    cases ha : pySearch altRE line <;> simp [ha]

/-- Witness for C7: the primary-match clause applied to the line
"1 - Intro - 00:30" and its concrete capture list. -/
theorem C7_witness :
    classifyLine "1 - Intro - 00:30" =
      some (some ((pyInt (grpStr [(5, "00:30"), (6, "30"), (6, "00:"),
          (4, " -"), (3, "Intro"), (2, " -"), (1, "1")] 1)).getD 0),
        grpStr [(5, "00:30"), (6, "30"), (6, "00:"), (4, " -"),
          (3, "Intro"), (2, " -"), (1, "1")] 3,
        grpStr [(5, "00:30"), (6, "30"), (6, "00:"), (4, " -"),
          (3, "Intro"), (2, " -"), (1, "1")] 5) :=
  C7_primary_priority.1 "1 - Intro - 00:30"
    [(5, "00:30"), (6, "30"), (6, "00:"), (4, " -"), (3, "Intro"),
      (2, " -"), (1, "1")] rfl

/-- C8: a config with zero non-blank lines yields an empty descriptor
sequence and no error; a config with exactly one non-blank, well-formed
line yields exactly one descriptor whose start is that line's converted
timestamp and whose end is the supplied total duration. -/
theorem C8_empty_and_single :
    (∀ (lines : List String) (alb : String) (dur : Option Int)
        (c : Option String) (td dn : Option Int) (a : Option String),
        (∀ l ∈ lines, pyStrip l = "") →
        process_conf lines alb dur c td dn a = .ok []) ∧
    (∀ (pre : List String) (l : String) (post : List String) (alb : String)
        (d : Int) (c : Option String) (td dn : Option Int)
        (a : Option String) (numOpt : Option Int) (nm ts : String) (v : Int),
        (∀ x ∈ pre, pyStrip x = "") → (∀ x ∈ post, pyStrip x = "") →
        pyStrip l ≠ "" →
        classifyLine (pyStrip l) = some (numOpt, nm, ts) →
        time_stamp_to_seconds ts = .ok v →
        process_conf (pre ++ l :: post) alb (some d) c td dn a =
          .ok [{ name := pyStrip nm,
                 track_number := numOpt.getD (Int.ofNat (1 + pre.length)),
                 track_start := v, track_end := some d, album := alb,
                 artist := a, composer := c, total_discs := td,
                 disc_number := dn, endWrites := 1 }]) := by
  constructor
  · intro lines alb dur c td dn a h
    unfold process_conf
    rw [processLines_all_blank alb c td dn a lines 1 [] h]
    rfl
  · intro pre l post alb d c td dn a numOpt nm ts v hpre hpost hl hc hts
    unfold process_conf
    rw [processLines_skip_blank alb c td dn a pre (l :: post) 1 [] hpre]
    have hstep : processLines alb c td dn a (1 + pre.length) (l :: post) [] =
        .ok [mkTrack alb c td dn a
          (numOpt.getD (Int.ofNat (1 + pre.length))) nm v] := by
      simp only [processLines, hc, hts]
      rw [if_neg hl]
      rw [processLines_all_blank alb c td dn a post (1 + pre.length + 1)
        (stepTrack alb c td dn a
          (numOpt.getD (Int.ofNat (1 + pre.length))) nm v []) hpost]
      rfl
    rw [hstep]
    rfl

/-- Witness for C8: the empty-config clause at `["", "  "]` and the
single-line clause at `["", "1 - Intro - 00:30", "  "]`. -/
theorem C8_witness :
    process_conf ["", "  "] "alb" (some 5) none none none none = .ok [] ∧
    process_conf ["", "1 - Intro - 00:30", "  "] "alb" (some 60)
        none none none none =
      .ok [{ name := "Intro", track_number := 1, track_start := 30,
             track_end := some 60, album := "alb", artist := none,
             composer := none, total_discs := none, disc_number := none,
             endWrites := 1 }] :=
  ⟨C8_empty_and_single.1 ["", "  "] "alb" (some 5) none none none none
      (by decide),
   C8_empty_and_single.2 [""] "1 - Intro - 00:30" ["  "] "alb" 60
      none none none none (some 1) "Intro" "00:30" 30
      (by decide) (by decide) (by decide) rfl rfl⟩

/-- C9: the sequencing step preserves the invariant that, in a nonempty
accumulator, exactly the most recently appended descriptor is open
(absent `track_end`, never written) and every earlier one is closed and
was written exactly once; `set_track_end` writes `track_end` and touches
no other field; and in any successfully returned descriptor list every
descriptor's `track_end` was written exactly once (by the next line's
timestamp, or by the supplied duration for the last). -/
theorem C9_single_open_descriptor :
    (∀ (alb : String) (c : Option String) (td dn : Option Int)
        (a : Option String) (num : Int) (nm : String) (sec : Int)
        (acc : List TrackInfo), SeqInv acc →
        SeqInv (stepTrack alb c td dn a num nm sec acc)) ∧
    (∀ (t : TrackInfo) (e : Option Int),
        (t.set_track_end e).track_end = e ∧
        (t.set_track_end e).name = t.name ∧
        (t.set_track_end e).track_number = t.track_number ∧
        (t.set_track_end e).track_start = t.track_start ∧
        (t.set_track_end e).album = t.album ∧
        (t.set_track_end e).artist = t.artist ∧
        (t.set_track_end e).composer = t.composer ∧
        (t.set_track_end e).total_discs = t.total_discs ∧
        (t.set_track_end e).disc_number = t.disc_number) ∧
    (∀ (lines : List String) (alb : String) (dur : Option Int)
        (c : Option String) (td dn : Option Int) (a : Option String)
        (tracks : List TrackInfo),
        process_conf lines alb dur c td dn a = .ok tracks →
        ∀ t ∈ tracks, t.endWrites = 1) := by
  refine ⟨fun alb c td dn a num nm sec acc h =>
      stepTrack_inv alb c td dn a num nm sec acc h,
    fun t e => ⟨rfl, rfl, rfl, rfl, rfl, rfl, rfl, rfl, rfl⟩, ?_⟩
  intro lines alb dur c td dn a tracks hok t ht
  cases hpl : processLines alb c td dn a 1 lines [] with
  | error e =>
    simp only [process_conf, hpl] at hok
    cases hok
  | ok out =>
    simp only [process_conf, hpl] at hok
    injection hok with hok2
    subst hok2
    have hinv := processLines_inv alb c td dn a lines 1 [] out seqInv_nil hpl
    rcases list_eq_nil_or_append out with rfl | ⟨L, u, rfl⟩
    · simp [setLastEnd] at ht
    · rw [setLastEnd_concat] at ht
      obtain ⟨hchain, hclosed, hlast⟩ := hinv
      rcases List.mem_append.mp ht with hL | hT
      · exact (hclosed t (by rw [List.dropLast_concat]; exact hL)).2
      · simp only [List.mem_singleton] at hT
        subst hT
        have hu := (hlast u (by simp)).2
        simp [TrackInfo.set_track_end, hu]

/-- Witness for C9: the step invariant from the empty accumulator, and
the write-exactly-once conclusion at the config `["00:00 A"]` processed
with an absent duration (the final write stores `none`). -/
theorem C9_witness :
    SeqInv (stepTrack "al" none none none none 7 "nm" 3 []) ∧
    (∀ t ∈ ([{ name := "A", track_number := 1, track_start := 0,
               track_end := none, album := "alb", artist := none,
               composer := none, total_discs := none, disc_number := none,
               endWrites := 1 }] : List TrackInfo), t.endWrites = 1) :=
  ⟨C9_single_open_descriptor.1 "al" none none none none 7 "nm" 3 []
      seqInv_nil,
   C9_single_open_descriptor.2.2 ["00:00 A"] "alb" none none none none
      none _ rfl⟩

/-- C10: the colon after each 2-digit timestamp group is optional in
both grammars: "1 - Intro - 0203" is accepted by the primary grammar
with the whole digit run "0203" as its timestamp token, which converts
as a single group to 203 seconds (not 2 minutes 3 seconds), and
"0203 Foo" is likewise accepted by the alternate grammar. -/
theorem C10_colonless_timestamp :
    classifyLine "1 - Intro - 0203" = some (some 1, "Intro", "0203") ∧
    time_stamp_to_seconds "0203" = .ok 203 ∧
    process_conf ["1 - Intro - 0203"] "A" (some 300) none none none none =
      .ok [{ name := "Intro", track_number := 1, track_start := 203,
             track_end := some 300, album := "A", artist := none,
             composer := none, total_discs := none, disc_number := none,
             endWrites := 1 }] ∧
    classifyLine "0203 Foo" = some (none, "Foo", "0203") :=
  ⟨rfl, rfl, rfl, rfl⟩

end Mp3Split

